import Mathlib

/-!
Verification of the H.264-over-RTP framing layer: a shallow embedding of
`pkg/sfu/frame_manager.go` (the frame assembler) and
`pkg/sfu/rtp_packetizer.go` (the packetizer), with theorems settling the
spec claims about them.

Bytes are modelled as `Nat` (values < 256 where they come from real
packets); Go's bitwise `&`, `|` are `Nat.land` / `Nat.lor` (`&&&`, `|||`);
Go's 16-bit sequence arithmetic is `% 65536`.  Wall-clock time is passed
explicitly (`now : Nat`, milliseconds); `time.Since(lastReceive)` becomes
`now - lastReceive` (Go's monotonic clock never yields a negative
duration, and Nat subtraction agrees on the nonnegative range).
Go's `map[uint16][]byte` fragment map is modelled as an association list
with unique keys, insertion overwriting the key's entry; the reassembly
code only ever uses the key set sorted ascending, which is order
independent.  The unused `frameBuffer` field (written only by `reset`,
never read) is omitted from the state.
-/

namespace LivekitH264

/-- The fields of `rtp.Packet` read by this code (`Version`, `Padding`,
`Extension` are constants the claims never mention). -/
structure Packet where
  sequenceNumber : Nat
  timestamp : Nat
  ssrc : Nat
  payloadType : Nat
  marker : Bool
  payload : List Nat
deriving DecidableEq, Repr

/-- `payload[0] & 0x1F`, the on-wire NAL unit type. -/
def nalTypeOf (u : List Nat) : Nat := u.headD 0 &&& 31

/-! ## NAL unit scanner (`parseNALUnits` / `findNALUnits`)

Both files contain the same loop: scan `i` from `0` while `i < len-4`,
split at every 4-byte start code `00 00 00 01`, emit the slice between
`start` and `i` when nonempty, and finally emit the tail `payload[start:]`
when nonempty. -/

/-- `payload[i..i+3] == 00 00 00 01`; out-of-range reads use a default of
255 which can never equal 0 or 1, exactly matching Go where the loop bound
keeps `i+3` in range whenever the test is reached. -/
def startCodeAt (p : List Nat) (i : Nat) : Bool :=
  p.getD i 255 == 0 && p.getD (i + 1) 255 == 0 &&
  p.getD (i + 2) 255 == 0 && p.getD (i + 3) 255 == 1

/-- The scanner loop; `fuel` counts the remaining iterations
(`len - 4 - i` at entry), `start` is the beginning of the unit being
accumulated, `i` the scan position. -/
def parseNALAux (p : List Nat) : Nat → Nat → Nat → List (List Nat)
  | 0, start, _ => if start < p.length then [p.drop start] else []
  | f + 1, start, i =>
    if startCodeAt p i then
      if start < i then
        (p.drop start).take (i - start) :: parseNALAux p f (i + 4) (i + 1)
      else parseNALAux p f (i + 4) (i + 1)
    else parseNALAux p f start (i + 1)

/-- `H264FrameManager.parseNALUnits` (the Go function also returns an
`error` that is always `nil`). -/
def parseNALUnits (p : List Nat) : List (List Nat) :=
  parseNALAux p (p.length - 4) 0 0

/-- `RTPPacketizer.findNALUnits` — textually the same algorithm as
`parseNALUnits`. -/
def findNALUnits (frame : List Nat) : List (List Nat) :=
  parseNALAux frame (frame.length - 4) 0 0

/-! ## RTP packetizer (`rtp_packetizer.go`) -/

def MaxRTPPacketSize : Nat := 1200

/-- The stateless packetizer configuration (the `logger` field is
omitted). -/
structure RTPPacketizer where
  ssrc : Nat
  pt : Nat
deriving DecidableEq, Repr

/-- The body of `fragmentNAL`'s loop: fragment `i` of `numFragments`
covers `nalData[i*(max-2) : min((i+1)*(max-2), len)]` where
`nalData = nal[1:]`; its payload is the FU indicator `(nal[0] & 0xE0) | 28`,
the FU header (start/end bits and the original NAL type), then the data
slice; the marker bit is set on the last fragment of the last NAL. -/
def fragmentAt (p : RTPPacketizer) (nal : List Nat) (startSeq ts : Nat)
    (isLastNAL : Bool) (numFragments i : Nat) : Packet :=
  let nalType := nal.headD 0 &&& 31
  let indicator := (nal.headD 0 &&& 224) ||| 28
  let nalData := nal.drop 1
  let st := i * (MaxRTPPacketSize - 2)
  let en := min (st + (MaxRTPPacketSize - 2)) nalData.length
  let fuHeader :=
    (if i = 0 then 128 else 0) |||
    (if i = numFragments - 1 then 64 else 0) ||| nalType
  { sequenceNumber := (startSeq + i) % 65536
    timestamp := ts
    ssrc := p.ssrc
    payloadType := p.pt
    marker := i = numFragments - 1 && isLastNAL
    payload := indicator :: fuHeader :: (nalData.drop st).take (en - st) }

/-- `RTPPacketizer.fragmentNAL`: split one oversized NAL unit into
`(len(nalData) + maxSize - 2) / (maxSize - 2)` FU-A fragments. -/
def fragmentNAL (p : RTPPacketizer) (nal : List Nat) (startSeq ts : Nat)
    (isLastNAL : Bool) : List Packet :=
  let numFragments := ((nal.drop 1).length + MaxRTPPacketSize - 2) / (MaxRTPPacketSize - 2)
  (List.range numFragments).map (fragmentAt p nal startSeq ts isLastNAL numFragments)

/-- The per-unit body of `Packetize`'s loop: either one single-NAL packet
(marker iff this is the last unit) or the FU-A fragments. -/
def packetsForNAL (p : RTPPacketizer) (nal : List Nat) (seq ts : Nat)
    (isLast : Bool) : List Packet :=
  if MaxRTPPacketSize < nal.length then
    fragmentNAL p nal seq ts isLast
  else
    [{ sequenceNumber := seq % 65536
       timestamp := ts
       ssrc := p.ssrc
       payloadType := p.pt
       marker := isLast
       payload := nal }]

/-- `Packetize`'s loop over the NAL unit list; Go tests
`i == len(nalUnits)-1` for "last unit", i.e. the rest of the list is
empty, and advances the 16-bit sequence counter by the number of packets
emitted for each unit. -/
def packetizeLoop (p : RTPPacketizer) (ts : Nat) :
    List (List Nat) → Nat → List Packet
  | [], _ => []
  | nal :: rest, seq =>
    let ps := packetsForNAL p nal seq ts rest.isEmpty
    ps ++ packetizeLoop p ts rest ((seq + ps.length) % 65536)

/-- `RTPPacketizer.Packetize` (the Go function's `error` result is always
`nil`; zero NAL units yield a `nil` packet slice, i.e. `[]`).  The
sequence counter is reset to 0 on every call, as in the source. -/
def Packetize (p : RTPPacketizer) (frame : List Nat) (ts : Nat) : List Packet :=
  packetizeLoop p ts (findNALUnits frame) 0

/-! ## Frame assembler state (`H264FrameManager`) -/

/-- The mutable state of `H264FrameManager` (mutex and logger omitted;
`frameBuffer` omitted as it is never read). -/
structure FMState where
  lastSeq : Nat
  lastTS : Nat
  ssrc : Nat
  pt : Nat
  isComplete : Bool
  nalUnits : List (List Nat)
  frameTimeout : Nat
  lastReceive : Nat
  fragments : List (Nat × List Nat)
  startSeq : Nat
  endSeq : Nat
deriving DecidableEq, Repr

/-- `NewH264FrameManager`: fresh state created at wall-clock time `t0`
(timeout 100 ms, empty fragment map, all integer fields zero). -/
def newFrameManager (t0 : Nat) : FMState :=
  { lastSeq := 0, lastTS := 0, ssrc := 0, pt := 0, isComplete := false
    nalUnits := [], frameTimeout := 100, lastReceive := t0
    fragments := [], startSeq := 0, endSeq := 0 }

/-- The errors `AddPacket` can return (`errors.New` strings in Go):
`ssrcMismatch` = "SSRC mismatch", `payloadTypeMismatch` =
"payload type mismatch", `invalidFUPacket` = "invalid FU-A packet",
`noFragments` = "no fragments to reassemble". -/
inductive AddError where
  | ssrcMismatch
  | payloadTypeMismatch
  | invalidFUPacket
  | noFragments
deriving DecidableEq, Repr

/-- `m.fragments[seq] = payload` on the Go map: overwrite the key if
present (keys stay unique). -/
def insertFrag (fr : List (Nat × List Nat)) (seq : Nat) (pl : List Nat) :
    List (Nat × List Nat) :=
  fr.filter (fun kv => kv.1 != seq) ++ [(seq, pl)]

/-- Insert one fragment into a list sorted ascending by key. -/
def insertByKey (kv : Nat × List Nat) :
    List (Nat × List Nat) → List (Nat × List Nat)
  | [] => [kv]
  | x :: xs => if kv.1 < x.1 then kv :: x :: xs else x :: insertByKey kv xs

/-- The `sort.Slice(sequences, ... <)` step of `reassembleFragments`:
the fragment map ordered by plain ascending sequence number (keys are
unique, so any ascending sort gives this list). -/
def sortedFragments (fr : List (Nat × List Nat)) : List (Nat × List Nat) :=
  fr.foldl (fun acc kv => insertByKey kv acc) []

/-- The concatenation step of `reassembleFragments`: walk the fragments in
plain ascending sequence order, skip any of length < 2, and append
`fragment[2:]` (FU indicator and FU header stripped; no NAL header byte is
reconstructed). -/
def reassembleBytes (fr : List (Nat × List Nat)) : List Nat :=
  (sortedFragments fr).foldl
    (fun acc kv => if kv.2.length < 2 then acc else acc ++ kv.2.drop 2) []

/-- `H264FrameManager.reassembleFragments`: fail if the fragment map is
empty, otherwise parse the concatenated stripped fragments, append the
resulting units, and set the completion flag. -/
def reassembleFragments (s : FMState) : FMState × Option AddError :=
  if s.fragments = [] then (s, some .noFragments)
  else
    ({ s with
        nalUnits := s.nalUnits ++ parseNALUnits (reassembleBytes s.fragments)
        isComplete := true }, none)

/-- `H264FrameManager.checkFrameComplete`: empty unit list → incomplete;
`time.Since(lastReceive) > frameTimeout` → complete; a last unit of NAL
type 10 or 12 (its length checked > 0 first) → complete; else
incomplete. -/
def checkFrameComplete (s : FMState) (now : Nat) : Bool :=
  match s.nalUnits.getLast? with
  | none => false
  | some last =>
    if s.frameTimeout < now - s.lastReceive then true
    else if 0 < last.length ∧ (nalTypeOf last = 10 ∨ nalTypeOf last = 12) then true
    else false

/-- `H264FrameManager.AddPacket` at wall-clock time `now`.  Returns the
post-call state together with the error (Go mutates the receiver in place,
so an early `return err` keeps every mutation made before it). -/
def AddPacket (s : FMState) (pkt : Packet) (now : Nat) : FMState × Option AddError :=
  if s.ssrc ≠ 0 ∧ s.ssrc ≠ pkt.ssrc then (s, some .ssrcMismatch)
  else if s.pt ≠ 0 ∧ s.pt ≠ pkt.payloadType then (s, some .payloadTypeMismatch)
  else
    let s1 := if s.ssrc = 0 then { s with ssrc := pkt.ssrc, pt := pkt.payloadType } else s
    if 0 < pkt.payload.length ∧ nalTypeOf pkt.payload = 28 then
      if pkt.payload.length < 2 then (s1, some .invalidFUPacket)
      else
        let fuHeader := pkt.payload.getD 1 0
        let s2 :=
          if fuHeader &&& 128 ≠ 0 then
            { s1 with startSeq := pkt.sequenceNumber, fragments := [] }
          else s1
        let s3 := { s2 with
          fragments := insertFrag s2.fragments pkt.sequenceNumber pkt.payload }
        if fuHeader &&& 64 ≠ 0 then
          reassembleFragments { s3 with endSeq := pkt.sequenceNumber }
        else (s3, none)
    else
      let s2 := { s1 with lastSeq := pkt.sequenceNumber, lastTS := pkt.timestamp }
      let s3 := { s2 with nalUnits := s2.nalUnits ++ parseNALUnits pkt.payload }
      ({ s3 with isComplete := checkFrameComplete s3 now, lastReceive := now }, none)

/-- `H264FrameManager.GetCompleteFrame`: `none` models the
"frame not complete" error; on success the accumulated NAL units are
concatenated (no start codes are inserted) and the unit list and
completion flag are cleared. -/
def GetCompleteFrame (s : FMState) : FMState × Option (List Nat) :=
  if s.isComplete then
    ({ s with nalUnits := [], isComplete := false },
     some (s.nalUnits.foldl (fun acc nal => acc ++ nal) []))
  else (s, none)

/-! ## Spec-side scanner, for the refinement comparison of claim C4

The following definitions restate the scanner contract in the spec's
words (amended to the start-code occurrences the loop bound actually
reaches): collect every position `i` with `i < len - 4` where a start
code occurs, then cut the buffer at those positions, emitting the
nonempty stretches between the end of one start code and the beginning
of the next (or the end of the buffer). -/

/-- All start-code positions the scanner's loop visits, in increasing
order: every `i < p.length - 4` with `p[i..i+3] = 00 00 00 01`. -/
def detectedPositions (p : List Nat) : List Nat :=
  (List.range (p.length - 4)).filter (fun i => startCodeAt p i)

/-- Cut `p` at the given (increasing) start-code positions: the bytes
from `start` up to the next position form one unit when nonempty, and
the remainder after the last start code forms the final unit when
nonempty. -/
def cutAt (p : List Nat) : List Nat → Nat → List (List Nat)
  | [], start => if start < p.length then [p.drop start] else []
  | i :: rest, start =>
    if start < i then (p.drop start).take (i - start) :: cutAt p rest (i + 4)
    else cutAt p rest (i + 4)

/-- The spec-side splitter: cut at every detected start-code position. -/
def scanSpec (p : List Nat) : List (List Nat) := cutAt p (detectedPositions p) 0

/-- The start-code positions at or after `i`, visited with `fuel`
remaining loop iterations — the iterative form of `detectedPositions`
used to relate it to `parseNALAux`. -/
def posFrom (p : List Nat) : Nat → Nat → List Nat
  | 0, _ => []
  | f + 1, i =>
    if startCodeAt p i then i :: posFrom p f (i + 1) else posFrom p f (i + 1)

/-! ## Concrete example inputs used by the claims -/

/-- A 6-byte NAL unit of type 7 (SPS): `103 & 0x1F = 7`. -/
def exNal7 : List Nat := [103, 1, 2, 3, 4, 5]

/-- A 10-byte NAL unit of type 1 (non-IDR slice): `97 & 0x1F = 1`. -/
def exNal1 : List Nat := [97, 10, 11, 12, 13, 14, 15, 16, 17, 18]

/-- The claim C1 frame: start code, 6-byte type-7 NAL, start code,
10-byte type-1 NAL. -/
def exFrame : List Nat := [0, 0, 0, 1] ++ exNal7 ++ [0, 0, 0, 1] ++ exNal1

/-- A packetizer configured with SSRC 1000 and payload type 96. -/
def exPacketizer : RTPPacketizer := ⟨1000, 96⟩

/-- The first packet `Packetize exPacketizer exFrame 9000` emits. -/
def exPkt0 : Packet := ⟨0, 9000, 1000, 96, false, exNal7⟩

/-- The second packet `Packetize exPacketizer exFrame 9000` emits. -/
def exPkt1 : Packet := ⟨1, 9000, 1000, 96, true, exNal1⟩

/-- A NAL unit one byte over the 1200-byte payload limit
(`101 & 0x1F = 5`, an IDR slice). -/
def exBigNal : List Nat := 101 :: List.replicate 1200 5

/-- The payload of `exBigNal`'s first FU-A fragment: FU indicator 124
(`(101 & 0xE0) | 28`), FU header 133 (start bit | type 5), then the
first 1198 data bytes. -/
def exFragPayload0 : List Nat := 124 :: 133 :: List.replicate 1198 5

/-- The payload of `exBigNal`'s second FU-A fragment: FU indicator 124,
FU header 69 (end bit | type 5), then the last 2 data bytes. -/
def exFragPayload1 : List Nat := [124, 69, 5, 5]

/-- The first fragment packet of `exBigNal`. -/
def exFragPkt0 : Packet := ⟨0, 9000, 1000, 96, false, exFragPayload0⟩

/-- The second (final, marker-bit) fragment packet of `exBigNal`. -/
def exFragPkt1 : Packet := ⟨1, 9000, 1000, 96, true, exFragPayload1⟩

/-- A session whose completion flag was latched true with one
accumulated (headerless) unit, as after an FU-A end-bit packet. -/
def exLatchedState : FMState :=
  { newFrameManager 0 with
      ssrc := 1000, pt := 96, isComplete := true, nalUnits := [[170, 187]] }

/-- The session state after a fresh assembler ingests `exFragPkt0`. -/
def exMidState : FMState :=
  { newFrameManager 0 with
      ssrc := 1000, pt := 96, startSeq := 0, fragments := [(0, exFragPayload0)] }

/-! ## Theorems -/

/-- C1 — the claim's packetizer half holds (2 packets, stated headers and
payloads), but its assembler half fails: feeding both packets in order
into a fresh assembler (second packet arriving within the 100 ms frame
timeout) leaves the completion flag false, because the last unit has NAL
type 1 and no timeout elapsed, so retrieval returns the
"frame not complete" error instead of succeeding. -/
theorem concrete_roundtrip_retrieval_fails :
    Packetize exPacketizer exFrame 9000 = [exPkt0, exPkt1] ∧
    (GetCompleteFrame
      (AddPacket (AddPacket (newFrameManager 0) exPkt0 0).1 exPkt1 0).1).2 = none := by
  decide

/-- C1 (amended) — `Packetize` emits exactly the two described packets;
feeding both in order is accepted and records the two NAL units and
timestamp 9000 in the session, but the frame stays incomplete and
retrieval fails while the packets arrive within the frame timeout;
if the second packet arrives more than 100 ms after the first, the frame
is marked complete and retrieval returns the two NAL units concatenated
without start codes (the timestamp is kept in `lastTS`, not returned). -/
theorem concrete_roundtrip_amended :
    Packetize exPacketizer exFrame 9000 = [exPkt0, exPkt1] ∧
    ((AddPacket (AddPacket (newFrameManager 0) exPkt0 0).1 exPkt1 0).2 = none ∧
     (AddPacket (AddPacket (newFrameManager 0) exPkt0 0).1 exPkt1 0).1.nalUnits =
       [exNal7, exNal1] ∧
     (AddPacket (AddPacket (newFrameManager 0) exPkt0 0).1 exPkt1 0).1.lastTS = 9000 ∧
     (AddPacket (AddPacket (newFrameManager 0) exPkt0 0).1 exPkt1 0).1.isComplete = false ∧
     (GetCompleteFrame
       (AddPacket (AddPacket (newFrameManager 0) exPkt0 0).1 exPkt1 0).1).2 = none) ∧
    ((AddPacket (AddPacket (newFrameManager 0) exPkt0 0).1 exPkt1 101).2 = none ∧
     (AddPacket (AddPacket (newFrameManager 0) exPkt0 0).1 exPkt1 101).1.isComplete = true ∧
     (GetCompleteFrame
       (AddPacket (AddPacket (newFrameManager 0) exPkt0 0).1 exPkt1 101).1).2 =
       some (exNal7 ++ exNal1)) := by
  decide

/-- C3 — counterexample: when the first accepted packet carries SSRC 0,
the session's identity is never locked: a second packet with a different
SSRC (5) is accepted without any mismatch error, and the session's SSRC
changes to 5. -/
theorem identity_not_locked_for_zero_ssrc :
    (AddPacket (newFrameManager 0) ⟨0, 111, 0, 96, true, [97, 1, 2]⟩ 0).2 = none ∧
    (AddPacket (AddPacket (newFrameManager 0) ⟨0, 111, 0, 96, true, [97, 1, 2]⟩ 0).1
      ⟨1, 222, 5, 96, true, [97, 3, 4]⟩ 0).2 = none ∧
    (AddPacket (AddPacket (newFrameManager 0) ⟨0, 111, 0, 96, true, [97, 1, 2]⟩ 0).1
      ⟨1, 222, 5, 96, true, [97, 3, 4]⟩ 0).1.ssrc = 5 := by
  decide

/-- C4 — counterexample: a start code occupying the final four bytes of
the buffer is not split on (the loop stops at `len - 4`); the claimed
contract would yield `[[65]]`, the code yields the whole buffer as one
unit. -/
theorem scanner_misses_trailing_start_code :
    parseNALUnits [65, 0, 0, 0, 1] = [[65, 0, 0, 0, 1]] ∧
    ([[65, 0, 0, 0, 1]] : List (List Nat)) ≠ [[65]] := by
  decide

/-- A successful start-code test implies all four compared bytes are in
range (an out-of-range read yields the default 255, which fails the
comparison with 0 and with 1). -/
lemma startCodeAt_lt (p : List Nat) (i : Nat) (h : startCodeAt p i = true) :
    i + 3 < p.length := by
  by_contra hlen
  push_neg at hlen
  unfold startCodeAt at h
  rw [List.getD_eq_default _ _ hlen] at h
  simp at h

/-- The iterative position scan agrees with filtering the index range. -/
lemma posFrom_eq_filter (p : List Nat) :
    ∀ f i, posFrom p f i = (List.range' i f).filter (fun j => startCodeAt p j) := by
  intro f
  induction f with
  | zero => intro i; simp [posFrom]
  | succ f ih =>
    intro i
    rw [List.range'_succ]
    simp only [posFrom, List.filter_cons, ih]

/-- The scanner loop equals cutting at the positions it detects. -/
lemma parseNALAux_eq_cutAt (p : List Nat) :
    ∀ f start i, parseNALAux p f start i = cutAt p (posFrom p f i) start := by
  intro f
  induction f with
  | zero => intro start i; rfl
  | succ f ih =>
    intro start i
    by_cases hc : startCodeAt p i
    · by_cases hs : start < i <;> simp [parseNALAux, posFrom, cutAt, hc, hs, ih]
    · simp [parseNALAux, posFrom, cutAt, hc, ih]

/-- Every unit the scanner loop emits is nonempty. -/
lemma parseNALAux_mem_ne_nil (p : List Nat) :
    ∀ f start i u, u ∈ parseNALAux p f start i → u ≠ [] := by
  intro f
  induction f with
  | zero =>
    intro start i u hu
    simp only [parseNALAux] at hu
    split at hu
    · next hs =>
      simp only [List.mem_singleton] at hu
      subst hu
      refine List.length_pos.mp ?_
      rw [List.length_drop]
      omega
    · simp at hu
  | succ f ih =>
    intro start i u hu
    simp only [parseNALAux] at hu
    by_cases hc : startCodeAt p i
    · rw [if_pos hc] at hu
      by_cases hs : start < i
      · rw [if_pos hs] at hu
        rcases List.mem_cons.mp hu with h | h
        · subst h
          have h3 := startCodeAt_lt p i hc
          refine List.length_pos.mp ?_
          rw [List.length_take, List.length_drop]
          omega
        · exact ih _ _ _ h
      · rw [if_neg hs] at hu
        exact ih _ _ _ hu
    · rw [if_neg hc] at hu
      exact ih _ _ _ hu

/-- C4 (amended) — the scanner splits on every start-code occurrence
beginning at a position `i < len - 4` (a start code occupying the final
four bytes is not recognized): `parseNALUnits` equals the spec-side
splitter `scanSpec`, `findNALUnits` is the same function, an empty
buffer yields an empty sequence, a nonempty buffer shorter than 4 bytes
yields the whole buffer as a single unit, and no zero-length unit is
ever emitted. -/
theorem scanner_contract_amended :
    (∀ p, parseNALUnits p = scanSpec p) ∧
    (∀ p, findNALUnits p = parseNALUnits p) ∧
    parseNALUnits [] = [] ∧
    (∀ p : List Nat, p ≠ [] → p.length < 4 → parseNALUnits p = [p]) ∧
    (∀ p u, u ∈ parseNALUnits p → u ≠ []) := by
  refine ⟨?_, fun _ => rfl, rfl, ?_, ?_⟩
  · intro p
    unfold parseNALUnits scanSpec detectedPositions
    rw [parseNALAux_eq_cutAt, List.range_eq_range', ← posFrom_eq_filter]
  · intro p hne hlen
    unfold parseNALUnits
    have h0 : p.length - 4 = 0 := by omega
    rw [h0]
    simp only [parseNALAux]
    rw [if_pos (List.length_pos.mpr hne), List.drop_zero]
  · intro p u hu
    exact parseNALAux_mem_ne_nil p _ _ _ _ hu

/-- Witness for C4's amended theorem at the concrete buffer `[9, 9]`. -/
theorem scanner_contract_amended_witness :
    parseNALUnits [9, 9] = [[9, 9]] :=
  scanner_contract_amended.2.2.2.1 [9, 9] (by decide) (by decide)

/-- C5 — `reassembleFragments` sorts fragment sequence numbers with a
plain `<`: for a span opened at sequence 65534 with fragments 65534
(start, data byte 1), 65535 (data byte 2) and 0 (end, data byte 3), the
reassembled unit is `[3, 1, 2]` (plain ascending order 0, 65534, 65535),
not the circular order `[1, 2, 3]` anchored at the span's start. -/
theorem fragment_sort_ignores_wraparound :
    (AddPacket (AddPacket (AddPacket (newFrameManager 0)
        ⟨65534, 1, 1000, 96, false, [124, 133, 1]⟩ 0).1
        ⟨65535, 1, 1000, 96, false, [124, 5, 2]⟩ 0).1
        ⟨0, 1, 1000, 96, false, [124, 69, 3]⟩ 0).1.nalUnits = [[3, 1, 2]] ∧
    ([[3, 1, 2]] : List (List Nat)) ≠ [[1, 2, 3]] := by
  decide

/-- Inserting into the fragment map never leaves it empty. -/
lemma insertFrag_ne_nil (fr : List (Nat × List Nat)) (seq : Nat) (pl : List Nat) :
    insertFrag fr seq pl ≠ [] := by
  simp [insertFrag]

/-- `reassembleFragments` never changes the session's SSRC. -/
lemma reassembleFragments_ssrc (s : FMState) :
    (reassembleFragments s).1.ssrc = s.ssrc := by
  unfold reassembleFragments
  split <;> rfl

/-- `reassembleFragments` never changes the session's payload type. -/
lemma reassembleFragments_pt (s : FMState) :
    (reassembleFragments s).1.pt = s.pt := by
  unfold reassembleFragments
  split <;> rfl

/-- On a nonempty fragment map, `reassembleFragments` succeeds and appends
the parsed units of the concatenated stripped fragments. -/
lemma reassembleFragments_none (s : FMState) (h : s.fragments ≠ []) :
    reassembleFragments s =
      ({ s with nalUnits := s.nalUnits ++ parseNALUnits (reassembleBytes s.fragments)
                isComplete := true }, none) := by
  unfold reassembleFragments
  rw [if_neg h]

/-- C3 (amended) — identity lock-in holds for sessions whose recorded
SSRC and payload type are both nonzero (as they are after a first packet
with nonzero SSRC and payload type): `AddPacket` never changes them, and
a packet differing in SSRC or payload type is rejected with the matching
mismatch error, the state unchanged.  (The code uses 0 as the "unset"
sentinel, so a zero SSRC or payload type is never locked.) -/
theorem identity_lockin_nonzero (s : FMState) (pkt : Packet) (now : Nat)
    (hs : s.ssrc ≠ 0) (hp : s.pt ≠ 0) :
    ((AddPacket s pkt now).1.ssrc = s.ssrc ∧ (AddPacket s pkt now).1.pt = s.pt) ∧
    ((pkt.ssrc ≠ s.ssrc ∨ pkt.payloadType ≠ s.pt) →
      (AddPacket s pkt now).1 = s ∧
      ((AddPacket s pkt now).2 = some AddError.ssrcMismatch ∨
       (AddPacket s pkt now).2 = some AddError.payloadTypeMismatch)) := by
  unfold AddPacket
  by_cases h1 : s.ssrc ≠ 0 ∧ s.ssrc ≠ pkt.ssrc
  · rw [if_pos h1]
    exact ⟨⟨rfl, rfl⟩, fun _ => ⟨rfl, Or.inl rfl⟩⟩
  · rw [if_neg h1]
    by_cases h2 : s.pt ≠ 0 ∧ s.pt ≠ pkt.payloadType
    · rw [if_pos h2]
      exact ⟨⟨rfl, rfl⟩, fun _ => ⟨rfl, Or.inr rfl⟩⟩
    · rw [if_neg h2]
      push_neg at h1 h2
      have e1 : s.ssrc = pkt.ssrc := h1 hs
      have e2 : s.pt = pkt.payloadType := h2 hp
      refine ⟨?_, fun hdiff => ?_⟩
      · simp only [if_neg hs]
        split_ifs <;>
          first
          | exact ⟨rfl, rfl⟩
          | exact ⟨reassembleFragments_ssrc _, reassembleFragments_pt _⟩
      · rcases hdiff with hd | hd
        · exact absurd e1.symm hd
        · exact absurd e2.symm hd

/-- Witness for C3's amended theorem: an SSRC-2000 packet arriving at a
session locked to SSRC 1000 / PT 96 is rejected without mutation. -/
theorem identity_lockin_nonzero_witness :
    (AddPacket { newFrameManager 0 with ssrc := 1000, pt := 96 }
      ⟨0, 1, 2000, 96, false, [97, 1]⟩ 0).1 =
      { newFrameManager 0 with ssrc := 1000, pt := 96 } ∧
    ((AddPacket { newFrameManager 0 with ssrc := 1000, pt := 96 }
      ⟨0, 1, 2000, 96, false, [97, 1]⟩ 0).2 = some AddError.ssrcMismatch ∨
     (AddPacket { newFrameManager 0 with ssrc := 1000, pt := 96 }
      ⟨0, 1, 2000, 96, false, [97, 1]⟩ 0).2 = some AddError.payloadTypeMismatch) :=
  (identity_lockin_nonzero { newFrameManager 0 with ssrc := 1000, pt := 96 }
    ⟨0, 1, 2000, 96, false, [97, 1]⟩ 0 (by decide) (by decide)).2 (Or.inl (by decide))

/-- C7 (amended) — every error return of `AddPacket` leaves the session
state unchanged, with one exception: an invalid-FU-A error on a session
whose identity is still unset (SSRC 0) returns with the packet's SSRC
and payload type already adopted, all other fields unchanged.  (The
"no fragments to reassemble" error is unreachable: the current packet is
always inserted before reassembly.) -/
theorem addPacket_error_atomicity (s : FMState) (pkt : Packet) (now : Nat)
    (e : AddError) (he : (AddPacket s pkt now).2 = some e) :
    (AddPacket s pkt now).1 = s ∨
    (s.ssrc = 0 ∧ e = AddError.invalidFUPacket ∧
      (AddPacket s pkt now).1 = { s with ssrc := pkt.ssrc, pt := pkt.payloadType }) := by
  unfold AddPacket at he ⊢
  by_cases h1 : s.ssrc ≠ 0 ∧ s.ssrc ≠ pkt.ssrc
  · rw [if_pos h1]
    exact Or.inl rfl
  · rw [if_neg h1] at he ⊢
    by_cases h2 : s.pt ≠ 0 ∧ s.pt ≠ pkt.payloadType
    · rw [if_pos h2]
      exact Or.inl rfl
    · rw [if_neg h2] at he ⊢
      by_cases hfu : 0 < pkt.payload.length ∧ nalTypeOf pkt.payload = 28
      · rw [if_pos hfu] at he ⊢
        by_cases hlen : pkt.payload.length < 2
        · rw [if_pos hlen] at he ⊢
          simp only [Option.some.injEq] at he
          by_cases hz : s.ssrc = 0
          · exact Or.inr ⟨hz, he.symm, by rw [if_pos hz]⟩
          · exact Or.inl (by rw [if_neg hz])
        · rw [if_neg hlen] at he
          by_cases hend : pkt.payload.getD 1 0 &&& 64 ≠ 0
          · rw [if_pos hend, reassembleFragments_none _ (insertFrag_ne_nil _ _ _)] at he
            simp at he
          · rw [if_neg hend] at he
            simp at he
      · rw [if_neg hfu] at he
        simp at he

/-- Witness for C7's amended theorem at the malformed FU-A packet on a
fresh session. -/
theorem addPacket_error_atomicity_witness :
    (AddPacket (newFrameManager 0) ⟨7, 1, 1000, 96, false, [124]⟩ 0).1 =
      newFrameManager 0 ∨
    ((newFrameManager 0).ssrc = 0 ∧
      AddError.invalidFUPacket = AddError.invalidFUPacket ∧
      (AddPacket (newFrameManager 0) ⟨7, 1, 1000, 96, false, [124]⟩ 0).1 =
        { newFrameManager 0 with ssrc := 1000, pt := 96 }) :=
  addPacket_error_atomicity (newFrameManager 0) ⟨7, 1, 1000, 96, false, [124]⟩ 0
    AddError.invalidFUPacket (by decide)

/-- For a session whose identity matches the packet, a well-formed FU-A
payload (length ≥ 2, start bit clear) never errors: it is inserted into
the fragment map, and if its end bit is set the accumulated fragments
are reassembled and appended and the frame is marked complete. -/
lemma addPacket_fu_no_start_bit (s : FMState) (pkt : Packet) (now : Nat)
    (hss : s.ssrc = pkt.ssrc) (hpt : s.pt = pkt.payloadType)
    (ht : nalTypeOf pkt.payload = 28) (hl : 2 ≤ pkt.payload.length)
    (hstart : pkt.payload.getD 1 0 &&& 128 = 0) :
    (AddPacket s pkt now).2 = none ∧
    (pkt.payload.getD 1 0 &&& 64 ≠ 0 →
      (AddPacket s pkt now).1.isComplete = true ∧
      (AddPacket s pkt now).1.nalUnits = s.nalUnits ++
        parseNALUnits (reassembleBytes
          (insertFrag s.fragments pkt.sequenceNumber pkt.payload))) ∧
    (pkt.payload.getD 1 0 &&& 64 = 0 →
      (AddPacket s pkt now).1 =
        { s with fragments := insertFrag s.fragments pkt.sequenceNumber pkt.payload }) := by
  have hadopt :
      (if s.ssrc = 0 then { s with ssrc := pkt.ssrc, pt := pkt.payloadType } else s) = s := by
    rw [← hss, ← hpt]
    split <;> rfl
  have hcond : 0 < pkt.payload.length ∧ nalTypeOf pkt.payload = 28 := ⟨by omega, ht⟩
  have hlen2 : ¬(pkt.payload.length < 2) := by omega
  have h128 : ¬(pkt.payload.getD 1 0 &&& 128 ≠ 0) := by rw [hstart]; simp
  unfold AddPacket
  rw [if_neg (by rw [← hss]; simp), if_neg (by rw [← hpt]; simp)]
  simp only [hadopt, if_pos hcond, if_neg hlen2, if_neg h128]
  by_cases hend : pkt.payload.getD 1 0 &&& 64 ≠ 0
  · rw [if_pos hend]
    rw [reassembleFragments_none
      { s with fragments := insertFrag s.fragments pkt.sequenceNumber pkt.payload,
               endSeq := pkt.sequenceNumber } (insertFrag_ne_nil _ _ _)]
    exact ⟨rfl, fun _ => ⟨rfl, rfl⟩, fun h0 => absurd h0 hend⟩
  · rw [if_neg hend]
    exact ⟨rfl, fun hx => absurd hx hend, fun _ => rfl⟩

/-- C8 (amended) — an FU-A fragment without the start bit is accepted
even when no span is open: for a session whose identity matches the
packet, a well-formed FU-A payload (length ≥ 2, start bit clear) never
errors; it is inserted into the fragment map, and if its end bit is set
the accumulated fragments (whatever they are) are reassembled into a
headerless unit appended to the NAL list and the frame is marked
complete — the code has no no-open-span error. -/
theorem fu_without_open_span_accepted (s : FMState) (pkt : Packet) (now : Nat)
    (hss : s.ssrc = pkt.ssrc) (hpt : s.pt = pkt.payloadType)
    (ht : nalTypeOf pkt.payload = 28) (hl : 2 ≤ pkt.payload.length)
    (hstart : pkt.payload.getD 1 0 &&& 128 = 0) :
    (AddPacket s pkt now).2 = none ∧
    (pkt.payload.getD 1 0 &&& 64 ≠ 0 →
      (AddPacket s pkt now).1.isComplete = true ∧
      (AddPacket s pkt now).1.nalUnits = s.nalUnits ++
        parseNALUnits (reassembleBytes
          (insertFrag s.fragments pkt.sequenceNumber pkt.payload))) ∧
    (pkt.payload.getD 1 0 &&& 64 = 0 →
      (AddPacket s pkt now).1 =
        { s with fragments := insertFrag s.fragments pkt.sequenceNumber pkt.payload }) :=
  addPacket_fu_no_start_bit s pkt now hss hpt ht hl hstart

/-- Witness for C8's amended theorem: an orphan end-bit fragment on a
fresh session is accepted and marks the frame complete. -/
theorem fu_without_open_span_accepted_witness :
    (AddPacket (newFrameManager 0) ⟨3, 1, 0, 0, false, [124, 69, 170]⟩ 5).2 = none ∧
    (AddPacket (newFrameManager 0) ⟨3, 1, 0, 0, false, [124, 69, 170]⟩ 5).1.isComplete =
      true := by
  have h := fu_without_open_span_accepted (newFrameManager 0)
    ⟨3, 1, 0, 0, false, [124, 69, 170]⟩ 5 rfl rfl (by decide) (by decide) (by decide)
  exact ⟨h.1, (h.2.1 (by decide)).1⟩

/-- The fragment count the packetizer computes:
`(len(nalData) + maxSize - 2) / (maxSize - 2)` with `nalData = nal[1:]`
and `maxSize - 2 = 1198`. -/
lemma fragmentNAL_length (p : RTPPacketizer) (nal : List Nat) (seq ts : Nat) (b : Bool) :
    (fragmentNAL p nal seq ts b).length = (nal.length - 1 + 1198) / 1198 := by
  simp [fragmentNAL, MaxRTPPacketSize]

/-- When `maxSize - 2` divides `len(nal) - 1`, the final fragment's
payload is just the 2 FU header bytes: its data slice is empty. -/
lemma fragmentNAL_last_payload (p : RTPPacketizer) (nal : List Nat) (seq ts : Nat)
    (b : Bool) (h : (MaxRTPPacketSize - 2) ∣ (nal.length - 1))
    (_h2 : MaxRTPPacketSize < nal.length) :
    ((fragmentNAL p nal seq ts b).getLast?).map (fun k => k.payload.length) = some 2 := by
  simp only [MaxRTPPacketSize] at h
  obtain ⟨k, hk⟩ := h
  simp only [fragmentNAL, fragmentAt, MaxRTPPacketSize]
  rw [List.getLast?_map, List.range_eq_range', List.getLast?_range']
  rw [if_neg (by simp [List.length_drop])]
  simp [fragmentAt, MaxRTPPacketSize, List.length_take, List.length_drop]
  omega

/-- C6 — counterexample: for a 2397-byte NAL unit (so `len - 1 = 2396`
is an exact multiple of `maxSize - 2 = 1198`) the packetizer emits 3
fragments, while `ceil((len-1)/(maxSize-2)) = 2`; the code computes
`(len-1+1198)/1198`, not the claimed ceiling `(len-1+1197)/1198`. -/
theorem fragment_count_not_ceil :
    (101 :: List.replicate 2396 5).length = 2397 ∧
    (fragmentNAL exPacketizer (101 :: List.replicate 2396 5) 0 0 true).length = 3 ∧
    (2397 - 1 + (MaxRTPPacketSize - 2) - 1) / (MaxRTPPacketSize - 2) = 2 ∧
    (3 : Nat) ≠ 2 := by
  have hlen : (101 :: List.replicate 2396 5).length = 2397 := by
    rw [List.length_cons, List.length_replicate]
  refine ⟨hlen, ?_, by norm_num [MaxRTPPacketSize], by norm_num⟩
  rw [fragmentNAL_length, hlen]

/-- C6 (amended) — for every NAL unit longer than the 1200-byte maximum,
the number of FU-A fragments is `floor((len-1)/(maxSize-2)) + 1`; this
coincides with `ceil((len-1)/(maxSize-2))` exactly when `maxSize - 2`
does not divide `len - 1`, and in the divisible case the extra final
fragment carries zero data bytes (its payload is the 2 FU header bytes
alone). -/
theorem fragment_count_formula (p : RTPPacketizer) (nal : List Nat) (seq ts : Nat)
    (b : Bool) (h : MaxRTPPacketSize < nal.length) :
    (fragmentNAL p nal seq ts b).length =
      (nal.length - 1) / (MaxRTPPacketSize - 2) + 1 ∧
    (¬ (MaxRTPPacketSize - 2) ∣ (nal.length - 1) →
      (fragmentNAL p nal seq ts b).length =
        (nal.length - 1 + (MaxRTPPacketSize - 2) - 1) / (MaxRTPPacketSize - 2)) ∧
    ((MaxRTPPacketSize - 2) ∣ (nal.length - 1) →
      ((fragmentNAL p nal seq ts b).getLast?).map (fun k => k.payload.length) = some 2) := by
  refine ⟨?_, ?_, fun hd => fragmentNAL_last_payload p nal seq ts b hd h⟩
  · rw [fragmentNAL_length]
    simp only [MaxRTPPacketSize]
    omega
  · intro hd
    rw [fragmentNAL_length]
    simp only [MaxRTPPacketSize] at hd ⊢
    omega

/-- Witness for C6's amended theorem: the 1201-byte `exBigNal` yields 2
fragments. -/
theorem fragment_count_formula_witness :
    (fragmentNAL exPacketizer exBigNal 0 0 true).length = 2 := by
  have hlen : exBigNal.length = 1201 := by
    rw [exBigNal, List.length_cons, List.length_replicate]
  have h := (fragment_count_formula exPacketizer exBigNal 0 0 true
    (by rw [hlen]; norm_num [MaxRTPPacketSize])).1
  rw [h, hlen]
  norm_num [MaxRTPPacketSize]

/-- C7 — counterexample: a malformed FU-A packet (payload `[124]`, NAL
type 28 but shorter than 2 bytes) rejected from a fresh session does NOT
leave the identity unset: the SSRC/payload-type adoption happens before
the FU-A validation, so the error returns with `ssrc = 1000`,
`pt = 96`. -/
theorem invalid_fu_sets_identity :
    (AddPacket (newFrameManager 0) ⟨7, 1, 1000, 96, false, [124]⟩ 0).2 =
      some .invalidFUPacket ∧
    (AddPacket (newFrameManager 0) ⟨7, 1, 1000, 96, false, [124]⟩ 0).1.ssrc = 1000 ∧
    (AddPacket (newFrameManager 0) ⟨7, 1, 1000, 96, false, [124]⟩ 0).1.pt = 96 := by
  decide

/-- C8 — counterexample: an FU-A end-bit packet (`fuHeader = 69`, start
bit clear) arriving at a fresh session with no open span is accepted
without any error, and reassembly of the single orphan fragment appends
the (headerless) unit `[170, 187]` — there is no no-open-span error in
the code. -/
theorem orphan_end_fragment_accepted :
    (AddPacket (newFrameManager 0) ⟨3, 1, 1000, 96, false, [124, 69, 170, 187]⟩ 0).2 =
      none ∧
    (AddPacket (newFrameManager 0)
      ⟨3, 1, 1000, 96, false, [124, 69, 170, 187]⟩ 0).1.nalUnits = [[170, 187]] := by
  decide


lemma fragmentAt_marker (p : RTPPacketizer) (nal : List Nat) (seq ts : Nat) (b : Bool)
    (n i : Nat) :
    (fragmentAt p nal seq ts b n i).marker = (decide (i = n - 1) && b) := rfl

lemma fragmentNAL_ne_nil (p : RTPPacketizer) (nal : List Nat) (seq ts : Nat) (b : Bool) :
    fragmentNAL p nal seq ts b ≠ [] := by
  intro hc
  have h := fragmentNAL_length p nal seq ts b
  rw [hc] at h
  simp at h

lemma countP_range_eq_last (n : Nat) (hn : 0 < n) :
    (List.range n).countP (fun i => decide (i = n - 1)) = 1 := by
  obtain ⟨m, rfl⟩ := Nat.exists_eq_add_of_lt hn
  rw [Nat.zero_add, List.range_succ, List.countP_append]
  have h0 : (List.range m).countP (fun i => decide (i = m + 1 - 1)) = 0 := by
    apply List.countP_eq_zero.mpr
    intro a ha
    have := List.mem_range.mp ha
    simp
    omega
  rw [h0]
  simp

lemma countP_marker_fragmentNAL_false (p : RTPPacketizer) (nal : List Nat) (seq ts : Nat) :
    (fragmentNAL p nal seq ts false).countP (fun k => k.marker) = 0 := by
  unfold fragmentNAL
  rw [List.countP_map]
  apply List.countP_eq_zero.mpr
  intro a _
  simp [Function.comp, fragmentAt_marker]

lemma countP_marker_fragmentNAL_true (p : RTPPacketizer) (nal : List Nat) (seq ts : Nat) :
    (fragmentNAL p nal seq ts true).countP (fun k => k.marker) = 1 := by
  unfold fragmentNAL
  rw [List.countP_map]
  have he : ((fun k => k.marker) ∘
      fragmentAt p nal seq ts true
        (((nal.drop 1).length + MaxRTPPacketSize - 2) / (MaxRTPPacketSize - 2))) =
      (fun i => decide
        (i = ((nal.drop 1).length + MaxRTPPacketSize - 2) / (MaxRTPPacketSize - 2) - 1)) := by
    funext i
    simp [Function.comp, fragmentAt_marker]
  rw [he]
  apply countP_range_eq_last
  simp [MaxRTPPacketSize]

lemma getLast_marker_fragmentNAL_true (p : RTPPacketizer) (nal : List Nat) (seq ts : Nat) :
    ∃ last, (fragmentNAL p nal seq ts true).getLast? = some last ∧ last.marker = true := by
  unfold fragmentNAL
  rw [List.getLast?_map, List.range_eq_range', List.getLast?_range']
  rw [if_neg (by simp [MaxRTPPacketSize])]
  refine ⟨_, rfl, ?_⟩
  rw [fragmentAt_marker]
  simp [MaxRTPPacketSize]

lemma packetsForNAL_ne_nil (p : RTPPacketizer) (nal : List Nat) (seq ts : Nat) (b : Bool) :
    packetsForNAL p nal seq ts b ≠ [] := by
  unfold packetsForNAL
  split
  · exact fragmentNAL_ne_nil p nal seq ts b
  · simp

lemma countP_marker_packetsForNAL_false (p : RTPPacketizer) (nal : List Nat) (seq ts : Nat) :
    (packetsForNAL p nal seq ts false).countP (fun k => k.marker) = 0 := by
  unfold packetsForNAL
  split
  · exact countP_marker_fragmentNAL_false p nal seq ts
  · simp

lemma marker_packetsForNAL_true (p : RTPPacketizer) (nal : List Nat) (seq ts : Nat) :
    (packetsForNAL p nal seq ts true).countP (fun k => k.marker) = 1 ∧
    ∃ last, (packetsForNAL p nal seq ts true).getLast? = some last ∧ last.marker = true := by
  unfold packetsForNAL
  split
  · exact ⟨countP_marker_fragmentNAL_true p nal seq ts,
      getLast_marker_fragmentNAL_true p nal seq ts⟩
  · exact ⟨by simp, ⟨_, rfl, rfl⟩⟩

lemma packetizeLoop_cons (p : RTPPacketizer) (ts : Nat) (u : List Nat)
    (rest : List (List Nat)) (seq : Nat) :
    packetizeLoop p ts (u :: rest) seq =
      packetsForNAL p u seq ts rest.isEmpty ++
      packetizeLoop p ts rest
        ((seq + (packetsForNAL p u seq ts rest.isEmpty).length) % 65536) := rfl

lemma packetizeLoop_markers (p : RTPPacketizer) (ts : Nat) :
    ∀ (units : List (List Nat)) (seq : Nat), units ≠ [] →
      (packetizeLoop p ts units seq).countP (fun k => k.marker) = 1 ∧
      ∃ last, (packetizeLoop p ts units seq).getLast? = some last ∧ last.marker = true := by
  intro units
  induction units with
  | nil => intro seq h; exact absurd rfl h
  | cons u rest ih =>
    intro seq _
    cases rest with
    | nil =>
      rw [packetizeLoop_cons]
      simp only [packetizeLoop, List.isEmpty_nil, List.append_nil]
      exact marker_packetsForNAL_true p u seq ts
    | cons v rest2 =>
      rw [packetizeLoop_cons]
      constructor
      · simp only [List.isEmpty_cons, List.countP_append,
          countP_marker_packetsForNAL_false]
        rw [(ih _ (by simp : (v :: rest2) ≠ [])).1]
      · obtain ⟨last, ihl, ihm⟩ :=
          (ih ((seq + (packetsForNAL p u seq ts (v :: rest2).isEmpty).length) % 65536)
            (by simp : (v :: rest2) ≠ [])).2
        refine ⟨last, ?_, ihm⟩
        rw [List.getLast?_append_of_ne_nil _
          (by intro hnil; rw [hnil] at ihl; simp at ihl), ihl]

/-- C9 — across one `Packetize` call on a frame with at least one NAL
unit, exactly one emitted packet has the marker bit set, and it is the
last packet (the final fragment of the final NAL unit when that unit is
fragmented, else the single packet carrying the final unit). -/
theorem marker_exactly_on_last_packet (p : RTPPacketizer) (frame : List Nat) (ts : Nat)
    (h : findNALUnits frame ≠ []) :
    (Packetize p frame ts).countP (fun k => k.marker) = 1 ∧
    ∃ last, (Packetize p frame ts).getLast? = some last ∧ last.marker = true := by
  unfold Packetize
  exact packetizeLoop_markers p ts (findNALUnits frame) 0 h

/-- Witness for C9 at the single-NAL frame `[0,0,0,1,55]`. -/
theorem marker_exactly_on_last_packet_witness :
    (Packetize exPacketizer [0, 0, 0, 1, 55] 0).countP (fun k => k.marker) = 1 ∧
    ∃ last, (Packetize exPacketizer [0, 0, 0, 1, 55] 0).getLast? = some last ∧
      last.marker = true :=
  marker_exactly_on_last_packet exPacketizer [0, 0, 0, 1, 55] 0 (by decide)



/-- `getD` on a replicated list: the element inside the range, the
default outside. -/
lemma getD_replicate (a d : Nat) :
    ∀ n i, (List.replicate n a).getD i d = if i < n then a else d := by
  intro n
  induction n with
  | zero => intro i; simp [List.getD]
  | succ n ih =>
    intro i
    cases i with
    | zero => simp [List.replicate]
    | succ i =>
      rw [List.replicate_succ, List.getD_cons_succ, ih]
      by_cases h : i < n
      · rw [if_pos h, if_pos (by omega)]
      · rw [if_neg h, if_neg (by omega)]

/-- A list of 5s contains no start code (its bytes are never 0). -/
lemma startCodeAt_replicate_five (n : Nat) :
    ∀ j, startCodeAt (List.replicate n 5) j = false := by
  intro j
  unfold startCodeAt
  rw [getD_replicate]
  by_cases h : j < n
  · rw [if_pos h]
    simp
  · rw [if_neg h]
    simp

/-- On a buffer with no start codes, the scanner loop falls through to
the final tail emission. -/
lemma parseNALAux_no_code (p : List Nat) (hp : ∀ j, startCodeAt p j = false) :
    ∀ f start i, parseNALAux p f start i = if start < p.length then [p.drop start] else [] := by
  intro f
  induction f with
  | zero => intro start i; rfl
  | succ f ih =>
    intro start i
    simp [parseNALAux, hp, ih]

/-- The scanner returns a nonempty all-5s buffer as a single unit. -/
lemma parse_replicate_five (n : Nat) (hn : 0 < n) :
    parseNALUnits (List.replicate n 5) = [List.replicate n 5] := by
  unfold parseNALUnits
  rw [parseNALAux_no_code _ (startCodeAt_replicate_five n)]
  rw [if_pos (by rw [List.length_replicate]; omega), List.drop_zero]

/-- `fragmentNAL` on a NAL unit with exactly 1200 data bytes: two
fragments, the first carrying 1198 data bytes with the start bit, the
second the remaining 2 with the end bit and the marker. -/
lemma fragmentNAL_two (p : RTPPacketizer) (a : Nat) (data : List Nat) (ts : Nat)
    (h : data.length = 1200) :
    fragmentNAL p (a :: data) 0 ts true =
      [⟨0, ts, p.ssrc, p.pt, false,
        ((a &&& 224) ||| 28) :: (128 ||| (a &&& 31)) :: data.take 1198⟩,
       ⟨1, ts, p.ssrc, p.pt, true,
        ((a &&& 224) ||| 28) :: (64 ||| (a &&& 31)) :: (data.drop 1198).take 2⟩] := by
  unfold fragmentNAL fragmentAt
  simp only [show (a :: data).drop 1 = data from rfl, h, MaxRTPPacketSize]
  norm_num
  rw [show List.range 2 = [0, 1] from rfl]
  simp

lemma exFragPayload0_length : exFragPayload0.length = 1200 := by
  rw [show exFragPayload0 = 124 :: 133 :: List.replicate 1198 5 from rfl,
    List.length_cons, List.length_cons, List.length_replicate]

/-- The packetizer fragments `exBigNal` into exactly `exFragPkt0` and
`exFragPkt1`. -/
lemma exFrag_eval : fragmentNAL exPacketizer exBigNal 0 9000 true = [exFragPkt0, exFragPkt1] := by
  rw [show exBigNal = 101 :: List.replicate 1200 5 from rfl]
  rw [fragmentNAL_two exPacketizer 101 (List.replicate 1200 5) 9000 (List.length_replicate _ _)]
  rw [List.take_replicate, List.drop_replicate]
  rw [show (1198 ⊓ 1200) = 1198 from by norm_num, show (1200 - 1198 : Nat) = 2 from by norm_num]
  rw [List.take_replicate, show (2 ⊓ 2 : Nat) = 2 from by norm_num]
  rfl

/-- Ingesting the start-bit fragment on a fresh assembler adopts the
identity, opens the span, and stores the fragment. -/
lemma addPacket_start_eval :
    AddPacket (newFrameManager 0) exFragPkt0 0 = (exMidState, none) := by
  have hfu : 0 < exFragPkt0.payload.length ∧ nalTypeOf exFragPkt0.payload = 28 :=
    ⟨by rw [show exFragPkt0.payload = exFragPayload0 from rfl, exFragPayload0_length]; omega,
     by decide⟩
  have hlt : ¬(exFragPkt0.payload.length < 2) := by
    rw [show exFragPkt0.payload = exFragPayload0 from rfl, exFragPayload0_length]
    omega
  have hstart : exFragPkt0.payload.getD 1 0 &&& 128 ≠ 0 := by decide
  have hend : exFragPkt0.payload.getD 1 0 &&& 64 = 0 := by decide
  unfold AddPacket
  rw [if_neg (show ¬((newFrameManager 0).ssrc ≠ 0 ∧ (newFrameManager 0).ssrc ≠ exFragPkt0.ssrc)
        from by decide),
      if_neg (show ¬((newFrameManager 0).pt ≠ 0 ∧ (newFrameManager 0).pt ≠ exFragPkt0.payloadType)
        from by decide),
      if_pos (show (newFrameManager 0).ssrc = 0 from rfl),
      if_pos hfu, if_neg hlt]
  simp only [if_pos hstart,
    if_neg (show ¬(exFragPkt0.payload.getD 1 0 &&& 64 ≠ 0) from fun hh => hh hend)]
  rfl

/-- Reassembling a two-fragment span with in-order keys strips the 2-byte
FU prefix of each fragment and concatenates. -/
lemma reassembleBytes_pair (a b : Nat) (x y : List Nat) (hab : a < b)
    (hx : ¬x.length < 2) (hy : ¬y.length < 2) :
    reassembleBytes [(a, x), (b, y)] = x.drop 2 ++ y.drop 2 := by
  unfold reassembleBytes sortedFragments
  simp only [List.foldl_cons, List.foldl_nil, insertByKey]
  rw [if_neg (by omega)]
  simp only [List.foldl_cons, List.foldl_nil]
  rw [if_neg hx, if_neg hy, List.nil_append]

/-- C2 — the code drops the NAL header byte on reassembly: fragmenting
the 1201-byte `exBigNal` yields the two packets `exFragPkt0`/`exFragPkt1`,
and feeding them in order into a fresh assembler accumulates the unit
`exBigNal[1:]` — the reassembled unit is missing the original first
(header) byte, because `reassembleFragments` strips both FU bytes of
every fragment and never reconstructs a NAL header from the FU
indicator/header as the claim requires. -/
theorem fragmented_roundtrip_drops_nal_header :
    fragmentNAL exPacketizer exBigNal 0 9000 true = [exFragPkt0, exFragPkt1] ∧
    (AddPacket (AddPacket (newFrameManager 0) exFragPkt0 0).1 exFragPkt1 0).2 = none ∧
    (AddPacket (AddPacket (newFrameManager 0) exFragPkt0 0).1 exFragPkt1 0).1.nalUnits =
      [exBigNal.drop 1] ∧
    exBigNal.drop 1 ≠ exBigNal := by
  have hsA : AddPacket (newFrameManager 0) exFragPkt0 0 = (exMidState, none) :=
    addPacket_start_eval
  have hB := addPacket_fu_no_start_bit exMidState exFragPkt1 0 rfl rfl
    (by decide) (by decide) (by decide)
  refine ⟨exFrag_eval, ?_, ?_, ?_⟩
  · rw [hsA]
    exact hB.1
  · rw [hsA]
    have h := (hB.2.1 (by decide)).2
    rw [h]
    rw [show insertFrag exMidState.fragments exFragPkt1.sequenceNumber exFragPkt1.payload =
          [(0, exFragPayload0), (1, exFragPayload1)] from rfl]
    rw [reassembleBytes_pair 0 1 exFragPayload0 exFragPayload1 (by omega)
          (by rw [exFragPayload0_length]; omega) (by decide)]
    rw [show exFragPayload0.drop 2 = List.replicate 1198 5 from rfl,
        show exFragPayload1.drop 2 = List.replicate 2 5 from rfl]
    rw [← List.replicate_add]
    rw [show (1198 + 2 : Nat) = 1200 from by norm_num]
    rw [parse_replicate_five 1200 (by norm_num)]
    rw [show exMidState.nalUnits = ([] : List (List Nat)) from rfl, List.nil_append]
    rfl
  · intro hcontra
    have h1 : exBigNal.length = 1201 := by
      rw [show exBigNal = 101 :: List.replicate 1200 5 from rfl, List.length_cons,
        List.length_replicate]
    have h2 : (exBigNal.drop 1).length = 1200 := by
      rw [show exBigNal.drop 1 = List.replicate 1200 5 from rfl, List.length_replicate]
    rw [hcontra] at h2
    omega

/-- `checkFrameComplete` reads only the NAL unit list, the timeout, and
the last-receive time. -/
lemma checkFrameComplete_congr (s t : FMState) (now : Nat)
    (h1 : s.nalUnits = t.nalUnits) (h2 : s.frameTimeout = t.frameTimeout)
    (h3 : s.lastReceive = t.lastReceive) :
    checkFrameComplete s now = checkFrameComplete t now := by
  unfold checkFrameComplete
  rw [h1, h2, h3]

/-- C10 — after every successful ingestion of a non-FU-A packet the
completion flag equals the freshly evaluated heuristic on the post-state
(timeout measured from the previous packet's receive time), regardless
of its prior value; and concretely, a session whose flag was latched
true (as after an FU-A end bit) has it reset to false by a subsequent
single-NAL type-1 packet arriving within the timeout, making the
previously completed access unit unretrievable. -/
theorem completion_flag_recomputed :
    (∀ (s : FMState) (pkt : Packet) (now : Nat),
      ¬(0 < pkt.payload.length ∧ nalTypeOf pkt.payload = 28) →
      (AddPacket s pkt now).2 = none →
      (AddPacket s pkt now).1.isComplete =
        checkFrameComplete { (AddPacket s pkt now).1 with lastReceive := s.lastReceive } now) ∧
    ((AddPacket exLatchedState ⟨1, 1, 1000, 96, false, [97, 3, 4]⟩ 50).2 = none ∧
     (AddPacket exLatchedState ⟨1, 1, 1000, 96, false, [97, 3, 4]⟩ 50).1.isComplete = false ∧
     (GetCompleteFrame
       (AddPacket exLatchedState ⟨1, 1, 1000, 96, false, [97, 3, 4]⟩ 50).1).2 = none) := by
  constructor
  · intro s pkt now hnfu he
    unfold AddPacket at he ⊢
    by_cases h1 : s.ssrc ≠ 0 ∧ s.ssrc ≠ pkt.ssrc
    · rw [if_pos h1] at he
      simp at he
    · rw [if_neg h1] at he ⊢
      by_cases h2 : s.pt ≠ 0 ∧ s.pt ≠ pkt.payloadType
      · rw [if_pos h2] at he
        simp at he
      · rw [if_neg h2] at he ⊢
        rw [if_neg hnfu]
        exact checkFrameComplete_congr _ _ now rfl rfl (by split <;> rfl)
  · exact ⟨by decide, by decide, by decide⟩

/-- Witness for C10's universal part at a concrete single-NAL packet. -/
theorem completion_flag_recomputed_witness :
    (AddPacket (newFrameManager 0) ⟨0, 9000, 1000, 96, false, [97, 3]⟩ 0).1.isComplete =
      checkFrameComplete
        { (AddPacket (newFrameManager 0) ⟨0, 9000, 1000, 96, false, [97, 3]⟩ 0).1 with
            lastReceive := (newFrameManager 0).lastReceive } 0 :=
  completion_flag_recomputed.1 (newFrameManager 0) ⟨0, 9000, 1000, 96, false, [97, 3]⟩ 0
    (by decide) (by decide)

end LivekitH264
